import Mathlib

/-!
# Verification of the cloudwatch-metrics-client aggregation engine

Shallow embedding of `src/cloudwatch_metrics_client/aiocloudwatch.py` and
`src/cloudwatch_metrics_client/cloudwatch.py`.

Modelling conventions:
* Python strings are lists of characters (`Str := List Char`).
* Python dicts are insertion-ordered association lists; `dictFind` embeds
  `d.get(k)` / `d[k]` reads and `dictSet` embeds `d[k] = v` (update in place
  when the key is present, append at the end otherwise), matching CPython's
  insertion-ordered dict semantics.
* Numeric metric values are `Int`.
* Wall-clock timestamps (`Timestamp: datetime.now()`) are omitted from the
  record structures: they carry no specifiable content.
* `None`-able Python values are `Option`s; a `KeyError` raised by a mandatory
  dict access is an `Except.error`, and the state returned alongside it is the
  state as already mutated before the raise (Python exceptions do not roll
  back prior mutations).
-/

namespace CW

/-- Python strings, modelled as lists of characters. -/
abbrev Str := List Char

/-- One `name, value` pair as iterated from a Python dimensions dict. -/
abbrev DimPair := Str × Str

/-- The items of a dimensions dict, in insertion order. -/
abbrev Dims := List DimPair

/-- Python `d.get(k)` on an insertion-ordered association list. -/
def dictFind {α β : Type} [DecidableEq α] : List (α × β) → α → Option β
  | [], _ => none
  | p :: rest, k => if p.1 = k then some p.2 else dictFind rest k

/-- Python `d.get(k, dflt)`. -/
def dictGetD {α β : Type} [DecidableEq α] (m : List (α × β)) (k : α) (dflt : β) : β :=
  match dictFind m k with
  | some v => v
  | none => dflt

/-- Python `d[k] = v`: replaces the value in place when the key is present,
otherwise appends the new pair at the end (insertion order). -/
def dictSet {α β : Type} [DecidableEq α] (m : List (α × β)) (k : α) (v : β) : List (α × β) :=
  match dictFind m k with
  | some _ => m.map fun p => if p.1 = k then (k, v) else p
  | none => m ++ [(k, v)]

namespace MetricDimension

/-- `MetricDimension.generate_id` (aiocloudwatch.py:234-239):
`'&'.join(['%s=%s' % (a, b) for a, b in dimensions.items()])` when dimensions
are present, `''` otherwise. -/
def generate_id : Option Dims → Str
  | some dimensions => List.intercalate ['&'] (dimensions.map fun p => p.1 ++ '=' :: p.2)
  | none => []

end MetricDimension

/-- One `{'Name': ..., 'Value': ...}` entry of a serialized dimensions list. -/
structure DimRecord where
  Name : Str
  Value : Str
deriving DecidableEq

namespace MetricDimension

/-- `MetricDimension.to_repr` (aiocloudwatch.py:229-232): `None` when there are
no dimensions, else the ordered `{'Name', 'Value'}` list. -/
def to_repr : Option Dims → Option (List DimRecord)
  | none => none
  | some dimensions => some (dimensions.map fun p => ⟨p.1, p.2⟩)

end MetricDimension

namespace Metric

/-- `Metric.generate_id` (aiocloudwatch.py:266-271): `'%s?%s' % (name, dim_id)`.
The `isinstance(dimensions, MetricDimension)` branch reuses the cached
`dim_id`, which is `MetricDimension.generate_id` of the same pairs, so both
branches compute the expression embedded here. -/
def generate_id (name : Str) (dimensions : Option Dims) : Str :=
  name ++ '?' :: MetricDimension.generate_id dimensions

end Metric

/-- State of a `MetricSeries` (counter series, aiocloudwatch.py:274-295): the
identity fields of its inner `Metric` plus the value-to-count dict
(`self.metric.value`, initialised to `{}`). -/
structure MetricSeries where
  name : Str
  dimensions : Option Dims
  unit : Option Str
  value : List (Int × Nat)
deriving DecidableEq

namespace MetricSeries

/-- `MetricSeries.add_value` (aiocloudwatch.py:281-284):
`count = values.get(value, 0) + 1; values[value] = count`. -/
def add_value (s : MetricSeries) (v : Int) : MetricSeries :=
  { s with value := dictSet s.value v (dictGetD s.value v 0 + 1) }

end MetricSeries

/-- A counter record as produced by `MetricSeries.to_repr`: the keys of the
emitted dict, with `Dimensions`/`Unit` as `Option`s because those keys are
present only when dimensions/unit are set (`Timestamp` omitted, see header). -/
structure CounterRecord where
  MetricName : Str
  Dimensions : Option (List DimRecord)
  Unit : Option Str
  Values : List Int
  Counts : List Nat
deriving DecidableEq

namespace MetricSeries

/-- `MetricSeries.to_repr` (aiocloudwatch.py:286-295): builds the base record
from `Metric.to_repr` (aiocloudwatch.py:253-264), deletes `Value`, and appends
each dict entry positionally to `Values`/`Counts`.  The Python signature
advertises `Union[dict, None]`, hence the `Option`; this branch always
produces a record. -/
def to_repr (s : MetricSeries) : Option CounterRecord :=
  some { MetricName := s.name
         Dimensions := MetricDimension.to_repr s.dimensions
         Unit := s.unit
         Values := s.value.map Prod.fst
         Counts := s.value.map Prod.snd }

end MetricSeries

/-- State of a `StatisticSeries` (aiocloudwatch.py:298-321): identity fields
plus the raw sample list (`self.metric.value`, re-initialised to `[]`). -/
structure StatisticSeries where
  name : Str
  dimensions : Option Dims
  unit : Option Str
  value : List Int
deriving DecidableEq

/-- The `StatisticValues` sub-dict of a statistic record. -/
structure StatisticValues where
  SampleCount : Nat
  Sum : Int
  Minimum : Int
  Maximum : Int
deriving DecidableEq

/-- A statistic record as produced by `StatisticSeries.to_repr`
(`Timestamp` omitted, see header). -/
structure StatRecord where
  MetricName : Str
  Dimensions : Option (List DimRecord)
  Unit : Option Str
  StatisticValues : StatisticValues
deriving DecidableEq

namespace StatisticSeries

/-- `StatisticSeries.add_value` (aiocloudwatch.py:319-320): appends. -/
def add_value (s : StatisticSeries) (v : Int) : StatisticSeries :=
  { s with value := s.value ++ [v] }

/-- `StatisticSeries.to_repr` (aiocloudwatch.py:305-317): `None` when no
samples were recorded, else `SampleCount = len`, `Sum = sum`, `Minimum = min`,
`Maximum = max` of the sample list (Python `min`/`max` of a nonempty list are
embedded as left folds over the tail starting from the head). -/
def to_repr (s : StatisticSeries) : Option StatRecord :=
  match s.value with
  | [] => none
  | v :: rest =>
    some { MetricName := s.name
           Dimensions := MetricDimension.to_repr s.dimensions
           Unit := s.unit
           StatisticValues :=
             { SampleCount := (v :: rest).length
               Sum := (v :: rest).sum
               Minimum := rest.foldl min v
               Maximum := rest.foldl max v } }

end StatisticSeries

/-- One element of the combined `metric_data` list a reporter drains: either a
counter record or a statistic record. -/
inductive OutRecord
  | counter (r : CounterRecord)
  | statistic (r : StatRecord)
deriving DecidableEq

/-- The `**metric_data` kwargs accepted by `put_metric`: every field is
optional at the call site; `MetricName` and `Value` are the required ones
(read with `metric_data['...']`, raising `KeyError` when absent). -/
structure MetricData where
  MetricName : Option Str
  Dimensions : Option Dims
  Value : Option Int
  Unit : Option Str
deriving DecidableEq

/-- The aggregation store of a reporter: `self.metrics` and `self.statistics`,
both insertion-ordered dicts keyed by the metric fingerprint. -/
structure ReporterState where
  metrics : List (Str × MetricSeries)
  statistics : List (Str × StatisticSeries)
deriving DecidableEq

/-- A freshly constructed reporter: both maps empty. -/
def ReporterState.init : ReporterState := ⟨[], []⟩

/-- The batching loop shared by both `_report` implementations
(cloudwatch.py:154-159, aiocloudwatch.py:206-211):
`for n in range(math.ceil(len(metric_data) / 20)): metric_data[n*20:(n+1)*20]`.
`math.ceil(k / 20)` is `(k + 19) / 20` in natural-number arithmetic, and the
slice `[n*20:(n+1)*20]` is drop-then-take. -/
def chunked {α : Type} (metric_data : List α) : List (List α) :=
  (List.range ((metric_data.length + 19) / 20)).map
    fun n => (metric_data.drop (n * 20)).take 20

namespace CloudWatchAsyncMetricReporter

/-- `CloudWatchAsyncMetricReporter.MAX_METRICS_PER_REPORT` (aiocloudwatch.py:123). -/
def MAX_METRICS_PER_REPORT : Nat := 20

/-- `CloudWatchAsyncMetricReporter.put_metric` (aiocloudwatch.py:147-158).
Reads `metric_data['MetricName']` (KeyError when absent, before any mutation),
lazily inserts a fresh `MetricSeries` for an unseen fingerprint, then calls
`metric.add_value(metric_data['Value'])` — the `Value` read raises after the
insertion already happened, so the returned state keeps the fresh series. -/
def put_metric (s : ReporterState) (md : MetricData) : ReporterState × Except String Bool :=
  match md.MetricName with
  | none => (s, .error "KeyError: MetricName")
  | some name =>
    let dimensions := md.Dimensions
    let metric_id := Metric.generate_id name dimensions
    let fetched : List (Str × MetricSeries) × MetricSeries :=
      match dictFind s.metrics metric_id with
      | none =>
        let fresh : MetricSeries := ⟨name, dimensions, md.Unit, []⟩
        (dictSet s.metrics metric_id fresh, fresh)
      | some metric => (s.metrics, metric)
    match md.Value with
    | none => ({ s with metrics := fetched.1 }, .error "KeyError: Value")
    | some v =>
      ({ s with metrics := dictSet fetched.1 metric_id (fetched.2.add_value v) }, .ok true)

/-- `CloudWatchAsyncMetricReporter.put_statistic` (aiocloudwatch.py:160-169):
lazily creates the `StatisticSeries` for the fingerprint, appends the sample,
returns `True`. -/
def put_statistic (s : ReporterState) (name : Str) (dimensions : Option Dims)
    (value : Int) (unit : Option Str) : ReporterState × Bool :=
  let metric_id := Metric.generate_id name dimensions
  let fetched : List (Str × StatisticSeries) × StatisticSeries :=
    match dictFind s.statistics metric_id with
    | none =>
      let fresh : StatisticSeries := ⟨name, dimensions, unit, []⟩
      (dictSet s.statistics metric_id fresh, fresh)
    | some stat => (s.statistics, stat)
  ({ s with statistics := dictSet fetched.1 metric_id (fetched.2.add_value value) }, true)

/-- `CloudWatchAsyncMetricReporter._calculate_statistics` (aiocloudwatch.py:191-194):
reduce every statistic series, reset the map, drop the `None`s. -/
def calculate_statistics (s : ReporterState) : List OutRecord × ReporterState :=
  (((s.statistics.map fun p => p.2.to_repr).filterMap id).map .statistic,
   { s with statistics := [] })

/-- `CloudWatchAsyncMetricReporter._calculate_metrics` (aiocloudwatch.py:196-199):
reduce every counter series, reset the map, drop the `None`s (counter
reduction never yields `None`, but the source filters anyway). -/
def calculate_metrics (s : ReporterState) : List OutRecord × ReporterState :=
  (((s.metrics.map fun p => p.2.to_repr).filterMap id).map .counter,
   { s with metrics := [] })

/-- The drain step of `CloudWatchAsyncMetricReporter._report`
(aiocloudwatch.py:205): `metric_data = self._calculate_metrics() +
self._calculate_statistics()`, evaluated left to right. -/
def drained (s : ReporterState) : List OutRecord × ReporterState :=
  let m := calculate_metrics s
  let st := calculate_statistics m.2
  (m.1 ++ st.1, st.2)

/-- `CloudWatchAsyncMetricReporter._report` (aiocloudwatch.py:201-216), as the
list of `MetricData=` batches handed to `client.put_metric_data`, one per
loop iteration, together with the post-drain store. -/
def report_batches (s : ReporterState) : List (List OutRecord) × ReporterState :=
  let d := drained s
  (chunked d.1, d.2)

end CloudWatchAsyncMetricReporter

namespace CloudWatchSyncMetricReporter

/-- `CloudWatchSyncMetricReporter.MAX_METRICS_PER_REPORT` (cloudwatch.py:72). -/
def MAX_METRICS_PER_REPORT : Nat := 20

/-- `CloudWatchSyncMetricReporter.put_metric` (cloudwatch.py:97-108); same body
as the async variant, under a `threading.Lock` instead of an `asyncio.Lock`. -/
def put_metric (s : ReporterState) (md : MetricData) : ReporterState × Except String Bool :=
  match md.MetricName with
  | none => (s, .error "KeyError: MetricName")
  | some name =>
    let dimensions := md.Dimensions
    let metric_id := Metric.generate_id name dimensions
    let fetched : List (Str × MetricSeries) × MetricSeries :=
      match dictFind s.metrics metric_id with
      | none =>
        let fresh : MetricSeries := ⟨name, dimensions, md.Unit, []⟩
        (dictSet s.metrics metric_id fresh, fresh)
      | some metric => (s.metrics, metric)
    match md.Value with
    | none => ({ s with metrics := fetched.1 }, .error "KeyError: Value")
    | some v =>
      ({ s with metrics := dictSet fetched.1 metric_id (fetched.2.add_value v) }, .ok true)

/-- `CloudWatchSyncMetricReporter.put_statistic` (cloudwatch.py:110-119). -/
def put_statistic (s : ReporterState) (name : Str) (dimensions : Option Dims)
    (value : Int) (unit : Option Str) : ReporterState × Bool :=
  let metric_id := Metric.generate_id name dimensions
  let fetched : List (Str × StatisticSeries) × StatisticSeries :=
    match dictFind s.statistics metric_id with
    | none =>
      let fresh : StatisticSeries := ⟨name, dimensions, unit, []⟩
      (dictSet s.statistics metric_id fresh, fresh)
    | some stat => (s.statistics, stat)
  ({ s with statistics := dictSet fetched.1 metric_id (fetched.2.add_value value) }, true)

/-- `CloudWatchSyncMetricReporter._calculate_statistics` (cloudwatch.py:140-143). -/
def calculate_statistics (s : ReporterState) : List OutRecord × ReporterState :=
  (((s.statistics.map fun p => p.2.to_repr).filterMap id).map .statistic,
   { s with statistics := [] })

/-- `CloudWatchSyncMetricReporter._calculate_metrics` (cloudwatch.py:145-148). -/
def calculate_metrics (s : ReporterState) : List OutRecord × ReporterState :=
  (((s.metrics.map fun p => p.2.to_repr).filterMap id).map .counter,
   { s with metrics := [] })

/-- The drain step of `CloudWatchSyncMetricReporter._report` (cloudwatch.py:153). -/
def drained (s : ReporterState) : List OutRecord × ReporterState :=
  let m := calculate_metrics s
  let st := calculate_statistics m.2
  (m.1 ++ st.1, st.2)

/-- `CloudWatchSyncMetricReporter._report` (cloudwatch.py:150-164) as its batch
list. -/
def report_batches (s : ReporterState) : List (List OutRecord) × ReporterState :=
  let d := drained s
  (chunked d.1, d.2)

end CloudWatchSyncMetricReporter

namespace CloudWatchSyncMetrics

/-- `CloudWatchSyncMetrics.put_metric` (cloudwatch.py:22-27): forwards to the
configured reporter; with no reporter configured (`cls.reporter is None`)
the attribute access raises `AttributeError`, caught to return `False`.
A `KeyError` raised inside the reporter is not caught and propagates. -/
def put_metric (reporter : Option ReporterState) (md : MetricData) :
    Option ReporterState × Except String Bool :=
  match reporter with
  | none => (none, .ok false)
  | some r =>
    let res := CloudWatchSyncMetricReporter.put_metric r md
    (some res.1, res.2)

/-- `CloudWatchSyncMetrics.put_statistic` (cloudwatch.py:29-34). -/
def put_statistic (reporter : Option ReporterState) (name : Str)
    (dimensions : Option Dims) (value : Int) (unit : Option Str) :
    Option ReporterState × Except String Bool :=
  match reporter with
  | none => (none, .ok false)
  | some r =>
    let res := CloudWatchSyncMetricReporter.put_statistic r name dimensions value unit
    (some res.1, .ok res.2)

end CloudWatchSyncMetrics

namespace CloudWatchAsyncMetrics

/-- `CloudWatchAsyncMetrics.put_metric` (aiocloudwatch.py:43-48). -/
def put_metric (reporter : Option ReporterState) (md : MetricData) :
    Option ReporterState × Except String Bool :=
  match reporter with
  | none => (none, .ok false)
  | some r =>
    let res := CloudWatchAsyncMetricReporter.put_metric r md
    (some res.1, res.2)

/-- `CloudWatchAsyncMetrics.put_statistic` (aiocloudwatch.py:50-55). -/
def put_statistic (reporter : Option ReporterState) (name : Str)
    (dimensions : Option Dims) (value : Int) (unit : Option Str) :
    Option ReporterState × Except String Bool :=
  match reporter with
  | none => (none, .ok false)
  | some r =>
    let res := CloudWatchAsyncMetricReporter.put_statistic r name dimensions value unit
    (some res.1, .ok res.2)

end CloudWatchAsyncMetrics

/-- One recording call made against a reporter: either a `put_metric` with its
kwargs or a `put_statistic` with its positional arguments. -/
inductive Op
  | metric (md : MetricData)
  | statistic (name : Str) (dimensions : Option Dims) (value : Int) (unit : Option Str)
deriving DecidableEq

/-- Run a sequence of recording calls against a fresh async reporter. -/
def runAsyncOps (ops : List Op) : ReporterState :=
  ops.foldl
    (fun s op =>
      match op with
      | .metric md => (CloudWatchAsyncMetricReporter.put_metric s md).1
      | .statistic n d v u => (CloudWatchAsyncMetricReporter.put_statistic s n d v u).1)
    ReporterState.init

/-- Run a sequence of recording calls against a fresh sync reporter. -/
def runSyncOps (ops : List Op) : ReporterState :=
  ops.foldl
    (fun s op =>
      match op with
      | .metric md => (CloudWatchSyncMetricReporter.put_metric s md).1
      | .statistic n d v u => (CloudWatchSyncMetricReporter.put_statistic s n d v u).1)
    ReporterState.init

/-- The duration value recorded by the `monitor` context managers of
`monitored_task` (cloudwatch.py:58-60, aiocloudwatch.py:87-103):
`elapsed.microseconds`, which for a non-negative `datetime.timedelta` is the
microsecond *component* — the total elapsed microseconds modulo one second —
not the total. -/
def monitored_recorded_value (elapsedTotalMicroseconds : Nat) : Nat :=
  elapsedTotalMicroseconds % 1000000

/-- Whether the `monitor` context managers record anything at all: the code
after `yield` has no `try/finally`, so when the wrapped callable raises, the
`put_statistic` call after the `yield` is skipped (cloudwatch.py:52-61,
aiocloudwatch.py:81-104). -/
def monitored_emits (wrappedRaised : Bool) : Bool :=
  !wrappedRaised

/-- What the wrapper hands to `put_statistic` for an elapsed duration of
`elapsedTotalMicroseconds`: `none` when the wrapped callable raised, else the
recorded value, always under unit `'Microseconds'`. -/
def monitored_statistic (wrappedRaised : Bool) (elapsedTotalMicroseconds : Nat) : Option Nat :=
  if monitored_emits wrappedRaised then some (monitored_recorded_value elapsedTotalMicroseconds)
  else none

/-- Property-side helper: the distinct elements of `vs` in the order each was
first observed. -/
def firstSeen (vs : List Int) : List Int :=
  vs.foldl (fun acc v => if v ∈ acc then acc else acc ++ [v]) []

/-- Property-side helper: dimension pairs whose names and values contain
neither of the fingerprint separator characters `'='` and `'&'`. -/
def sepFree (P : Dims) : Prop :=
  ∀ p ∈ P, '=' ∉ p.1 ∧ '&' ∉ p.1 ∧ '=' ∉ p.2 ∧ '&' ∉ p.2

instance (P : Dims) : Decidable (sepFree P) := by
  unfold sepFree; infer_instance

/-- Property-side helper: the count stored for value `v` in the counter series
at fingerprint `id`, or 0 when no such series/entry exists. -/
def seriesCountAt (s : ReporterState) (id : Str) (v : Int) : Nat :=
  match dictFind s.metrics id with
  | none => 0
  | some ser => dictGetD ser.value v 0

/-- Property-side helper: the samples of the statistic series at fingerprint
`id`, or `[]` when no such series exists. -/
def statSamplesAt (s : ReporterState) (id : Str) : List Int :=
  match dictFind s.statistics id with
  | none => []
  | some ser => ser.value

/-! ## Lemmas about the Python dict embedding -/

theorem dictFind_nil {α β : Type} [DecidableEq α] (k : α) :
    dictFind ([] : List (α × β)) k = none := rfl

theorem dictFind_cons {α β : Type} [DecidableEq α] (p : α × β) (rest : List (α × β)) (k : α) :
    dictFind (p :: rest) k = if p.1 = k then some p.2 else dictFind rest k := rfl

theorem dictFind_append {α β : Type} [DecidableEq α] (m m' : List (α × β)) (k : α) :
    dictFind (m ++ m') k = ((dictFind m k).rec (dictFind m' k) fun v => some v) := by
  induction m with
  | nil => simp [dictFind]
  | cons p rest ih => by_cases h : p.1 = k <;> simp [dictFind, h, ih]

theorem dictFind_map_graph {α β : Type} [DecidableEq α] (l : List α) (f : α → β) (k : α) :
    dictFind (l.map fun w => (w, f w)) k = if k ∈ l then some (f k) else none := by
  induction l with
  | nil => simp [dictFind]
  | cons a rest ih =>
    by_cases h : a = k
    · subst h; simp [dictFind]
    · simp [dictFind, h, ih, Ne.symm h]

theorem dictSet_map_graph_mem {α β : Type} [DecidableEq α] (l : List α) (f : α → β)
    (k : α) (c : β) (h : k ∈ l) :
    dictSet (l.map fun w => (w, f w)) k c = l.map fun w => (w, if w = k then c else f w) := by
  unfold dictSet
  rw [dictFind_map_graph, if_pos h]
  simp only [List.map_map]
  apply List.map_congr_left
  intro w _
  by_cases hwk : w = k
  · subst hwk; simp
  · simp [hwk]

theorem dictSet_map_graph_not_mem {α β : Type} [DecidableEq α] (l : List α) (f : α → β)
    (k : α) (c : β) (h : k ∉ l) :
    dictSet (l.map fun w => (w, f w)) k c = (l.map fun w => (w, f w)) ++ [(k, c)] := by
  unfold dictSet
  rw [dictFind_map_graph, if_neg h]

theorem dictFind_setAll {α β : Type} [DecidableEq α] (m : List (α × β)) (k : α) (v : β) :
    dictFind (m.map fun p => if p.1 = k then (k, v) else p) k
      = (dictFind m k).map fun _ => v := by
  induction m with
  | nil => simp [dictFind]
  | cons p rest ih =>
    by_cases h : p.1 = k
    · simp [dictFind, h]
    · simp [dictFind, h, ih]

theorem dictFind_setAll_ne {α β : Type} [DecidableEq α] (m : List (α × β)) (k k' : α) (v : β)
    (h : k' ≠ k) :
    dictFind (m.map fun p => if p.1 = k then (k, v) else p) k' = dictFind m k' := by
  induction m with
  | nil => simp [dictFind]
  | cons p rest ih =>
    simp only [List.map_cons, dictFind_cons]
    by_cases hp : p.1 = k
    · have h1 : ¬p.1 = k' := by rw [hp]; exact fun hh => h hh.symm
      rw [if_pos hp, if_neg h1]
      have h2 : ¬((k, v) : α × β).1 = k' := fun hh => h hh.symm
      rw [if_neg h2, ih]
    · rw [if_neg hp]
      by_cases hp' : p.1 = k'
      · rw [if_pos hp', if_pos hp']
      · rw [if_neg hp', if_neg hp', ih]

theorem dictFind_dictSet_self {α β : Type} [DecidableEq α] (m : List (α × β)) (k : α) (v : β) :
    dictFind (dictSet m k v) k = some v := by
  unfold dictSet
  cases hm : dictFind m k with
  | none => rw [dictFind_append, hm]; simp [dictFind]
  | some w => rw [dictFind_setAll, hm]; rfl

theorem dictFind_dictSet_ne {α β : Type} [DecidableEq α] (m : List (α × β)) (k k' : α) (v : β)
    (h : k' ≠ k) :
    dictFind (dictSet m k v) k' = dictFind m k' := by
  unfold dictSet
  cases hm : dictFind m k with
  | none =>
    rw [dictFind_append]
    have h2 : ¬k = k' := fun hh => h hh.symm
    cases hm' : dictFind m k' <;> simp [dictFind, h2]
  | some w => exact dictFind_setAll_ne m k k' v h

theorem dictFind_mem {α β : Type} [DecidableEq α] {m : List (α × β)} {k : α} {v : β}
    (h : dictFind m k = some v) : (k, v) ∈ m := by
  induction m with
  | nil => simp [dictFind] at h
  | cons p rest ih =>
    rw [dictFind_cons] at h
    by_cases hp : p.1 = k
    · rw [if_pos hp] at h
      injection h with h2
      have hpk : p = (k, v) := by
        cases p
        exact Prod.ext hp h2
      rw [hpk]
      exact List.mem_cons_self _ _
    · rw [if_neg hp] at h
      exact List.mem_cons_of_mem _ (ih h)

/-! ## Lemmas about `firstSeen` -/

theorem firstSeen_concat (vs : List Int) (v : Int) :
    firstSeen (vs ++ [v])
      = if v ∈ firstSeen vs then firstSeen vs else firstSeen vs ++ [v] := by
  simp [firstSeen, List.foldl_append]

theorem mem_foldl_firstSeen (vs acc : List Int) (x : Int) :
    x ∈ vs.foldl (fun acc v => if v ∈ acc then acc else acc ++ [v]) acc
      ↔ x ∈ acc ∨ x ∈ vs := by
  induction vs generalizing acc with
  | nil => simp
  | cons v rest ih =>
    simp only [List.foldl_cons, ih, List.mem_cons]
    by_cases h : v ∈ acc
    · rw [if_pos h]
      constructor
      · rintro (hx | hx)
        · exact Or.inl hx
        · exact Or.inr (Or.inr hx)
      · rintro (hx | hx | hx)
        · exact Or.inl hx
        · rw [hx]; exact Or.inl h
        · exact Or.inr hx
    · rw [if_neg h]
      simp only [List.mem_append, List.mem_singleton]
      tauto

theorem mem_firstSeen (vs : List Int) (x : Int) : x ∈ firstSeen vs ↔ x ∈ vs := by
  simpa [firstSeen] using mem_foldl_firstSeen vs [] x

theorem nodup_foldl_firstSeen (vs : List Int) :
    ∀ acc : List Int, acc.Nodup →
      (vs.foldl (fun acc v => if v ∈ acc then acc else acc ++ [v]) acc).Nodup := by
  induction vs with
  | nil => intro acc h; simpa
  | cons v rest ih =>
    intro acc h
    simp only [List.foldl_cons]
    by_cases hv : v ∈ acc
    · rw [if_pos hv]; exact ih acc h
    · rw [if_neg hv]
      refine ih _ ?_
      simp [List.nodup_append, h, hv]

theorem nodup_firstSeen (vs : List Int) : (firstSeen vs).Nodup :=
  nodup_foldl_firstSeen vs [] (by simp)

/-! ## The counter-series histogram -/

theorem map_fst_graph {α β : Type} (l : List α) (f : α → β) :
    (l.map fun w => (w, f w)).map Prod.fst = l := by
  induction l <;> simp_all

theorem map_snd_graph {α β : Type} (l : List α) (f : α → β) :
    (l.map fun w => (w, f w)).map Prod.snd = l.map f := by
  induction l <;> simp_all

theorem map_fst_comp_graph {α β : Type} (l : List α) (f : α → β) :
    (l.map (Prod.fst ∘ fun w => (w, f w))) = l := by
  induction l <;> simp_all

theorem map_snd_comp_graph {α β : Type} (l : List α) (f : α → β) :
    (l.map (Prod.snd ∘ fun w => (w, f w))) = l.map f := by
  induction l <;> simp_all

theorem foldl_add_value_eta (vs : List Int) (s : MetricSeries) :
    vs.foldl MetricSeries.add_value s
      = { s with value := vs.foldl (fun m v => dictSet m v (dictGetD m v 0 + 1)) s.value } := by
  induction vs generalizing s with
  | nil => simp
  | cons v rest ih => simpa [MetricSeries.add_value] using ih (s.add_value v)

theorem histogram_spec (vs : List Int) :
    vs.foldl (fun m v => dictSet m v (dictGetD m v 0 + 1)) []
      = (firstSeen vs).map fun w => (w, vs.count w) := by
  induction vs using List.reverseRecOn with
  | nil => simp [firstSeen]
  | append_singleton vs v ih =>
    rw [List.foldl_append, ih, List.foldl_cons, List.foldl_nil]
    by_cases hv : v ∈ vs
    · have hvf : v ∈ firstSeen vs := (mem_firstSeen vs v).mpr hv
      have hget : dictGetD ((firstSeen vs).map fun w => (w, vs.count w)) v 0 = vs.count v := by
        unfold dictGetD
        rw [dictFind_map_graph, if_pos hvf]
      rw [hget, dictSet_map_graph_mem _ _ _ _ hvf, firstSeen_concat, if_pos hvf]
      apply List.map_congr_left
      intro w _
      by_cases hwv : w = v
      · subst hwv; simp [List.count_append]
      · simp [hwv, List.count_append]
    · have hvf : v ∉ firstSeen vs := fun h => hv ((mem_firstSeen vs v).mp h)
      have hget : dictGetD ((firstSeen vs).map fun w => (w, vs.count w)) v 0 = 0 := by
        unfold dictGetD
        rw [dictFind_map_graph, if_neg hvf]
      rw [hget, dictSet_map_graph_not_mem _ _ _ _ hvf, firstSeen_concat, if_neg hvf,
        List.map_append]
      congr 1
      · apply List.map_congr_left
        intro w hw
        have hwv : w ≠ v := fun h => hv (h ▸ (mem_firstSeen vs w).mp hw)
        simp [List.count_append, hwv]
      · simp [List.count_append, List.count_eq_zero.mpr hv]

/-- Claim C2: for every sequence of `add_value(v)` calls on a `MetricSeries`
(counter series), `to_repr()` yields positionally paired `Values` and `Counts`
such that every distinct added value appears exactly once in `Values`, in the
order values were first observed; `Counts[i]` is the number of times
`Values[i]` was added; and the `Dimensions`/`Unit` keys appear in the record
exactly when dimensions/unit are present. -/
theorem claim_C2_counter_series (name : Str) (dims : Option Dims) (unit : Option Str)
    (vs : List Int) :
    ∃ r : CounterRecord,
      (vs.foldl MetricSeries.add_value ⟨name, dims, unit, []⟩).to_repr = some r ∧
      r.Values = firstSeen vs ∧
      r.Counts = (r.Values.map fun w => vs.count w) ∧
      r.Values.Nodup ∧
      (∀ v : Int, v ∈ r.Values ↔ v ∈ vs) ∧
      r.MetricName = name ∧
      r.Dimensions = MetricDimension.to_repr dims ∧
      r.Unit = unit ∧
      (r.Dimensions = none ↔ dims = none) ∧
      (r.Unit = none ↔ unit = none) := by
  rw [foldl_add_value_eta, histogram_spec]
  refine ⟨_, rfl, ?_, ?_, ?_, ?_, rfl, rfl, rfl, ?_, Iff.rfl⟩
  · simp [MetricSeries.to_repr, map_fst_graph, map_fst_comp_graph]
  · simp [MetricSeries.to_repr, map_fst_graph, map_snd_graph, map_fst_comp_graph,
      map_snd_comp_graph]
  · simpa [MetricSeries.to_repr, map_fst_graph, map_fst_comp_graph] using nodup_firstSeen vs
  · intro v
    simp [MetricSeries.to_repr, map_fst_graph, map_fst_comp_graph, mem_firstSeen]
  · cases dims <;> simp [MetricDimension.to_repr]

/-! ## The statistic-series reduction -/

theorem foldl_stat_add_value_eta (vs : List Int) (s : StatisticSeries) :
    vs.foldl StatisticSeries.add_value s = { s with value := s.value ++ vs } := by
  induction vs generalizing s with
  | nil => simp
  | cons v rest ih => simpa [StatisticSeries.add_value] using ih (s.add_value v)

theorem foldl_min_mem (l : List Int) (a : Int) : l.foldl min a ∈ a :: l := by
  induction l generalizing a with
  | nil => simp
  | cons b l ih =>
    rw [List.foldl_cons]
    rcases List.mem_cons.mp (ih (min a b)) with h1 | h1
    · rcases min_choice a b with hm | hm
      · rw [h1, hm]; exact List.mem_cons_self _ _
      · rw [h1, hm]; exact List.mem_cons_of_mem _ (List.mem_cons_self _ _)
    · exact List.mem_cons_of_mem _ (List.mem_cons_of_mem _ h1)

theorem foldl_min_le (l : List Int) (a : Int) : ∀ x ∈ a :: l, l.foldl min a ≤ x := by
  induction l generalizing a with
  | nil =>
    intro x hx
    rw [List.mem_singleton] at hx
    simp [hx]
  | cons b l ih =>
    intro x hx
    rw [List.foldl_cons]
    have hmin : l.foldl min (min a b) ≤ min a b :=
      ih (min a b) (min a b) (List.mem_cons_self _ _)
    rcases List.mem_cons.mp hx with h1 | h1
    · rw [h1]; exact le_trans hmin (min_le_left a b)
    · rcases List.mem_cons.mp h1 with h2 | h2
      · rw [h2]; exact le_trans hmin (min_le_right a b)
      · exact ih (min a b) x (List.mem_cons_of_mem _ h2)

theorem foldl_max_mem (l : List Int) (a : Int) : l.foldl max a ∈ a :: l := by
  induction l generalizing a with
  | nil => simp
  | cons b l ih =>
    rw [List.foldl_cons]
    rcases List.mem_cons.mp (ih (max a b)) with h1 | h1
    · rcases max_choice a b with hm | hm
      · rw [h1, hm]; exact List.mem_cons_self _ _
      · rw [h1, hm]; exact List.mem_cons_of_mem _ (List.mem_cons_self _ _)
    · exact List.mem_cons_of_mem _ (List.mem_cons_of_mem _ h1)

theorem foldl_max_ge (l : List Int) (a : Int) : ∀ x ∈ a :: l, x ≤ l.foldl max a := by
  induction l generalizing a with
  | nil =>
    intro x hx
    rw [List.mem_singleton] at hx
    simp [hx]
  | cons b l ih =>
    intro x hx
    rw [List.foldl_cons]
    have hmax : max a b ≤ l.foldl max (max a b) :=
      ih (max a b) (max a b) (List.mem_cons_self _ _)
    rcases List.mem_cons.mp hx with h1 | h1
    · rw [h1]; exact le_trans (le_max_left a b) hmax
    · rcases List.mem_cons.mp h1 with h2 | h2
      · rw [h2]; exact le_trans (le_max_right a b) hmax
      · exact ih (max a b) x (List.mem_cons_of_mem _ h2)

/-- Claim C3: on a `StatisticSeries`, after `n ≥ 1` `add_value` calls,
`to_repr()` yields `StatisticValues` with `SampleCount = n`, `Sum` the sum of
the samples, `Minimum` the least sample and `Maximum` the greatest; after
`n = 0` calls it yields no record, and the drain step
(`_calculate_statistics`) filters empty entries out instead of emitting zeroed
records (every emitted statistic record has sample count at least one) — in
both reporter variants. -/
theorem claim_C3_statistic_series (name : Str) (dims : Option Dims) (unit : Option Str)
    (vs : List Int) :
    ((vs = [] → (vs.foldl StatisticSeries.add_value ⟨name, dims, unit, []⟩).to_repr = none) ∧
     (vs ≠ [] → ∃ r : StatRecord,
        (vs.foldl StatisticSeries.add_value ⟨name, dims, unit, []⟩).to_repr = some r ∧
        r.StatisticValues.SampleCount = vs.length ∧
        r.StatisticValues.Sum = vs.sum ∧
        r.StatisticValues.Minimum ∈ vs ∧
        (∀ x ∈ vs, r.StatisticValues.Minimum ≤ x) ∧
        r.StatisticValues.Maximum ∈ vs ∧
        (∀ x ∈ vs, x ≤ r.StatisticValues.Maximum) ∧
        r.MetricName = name ∧
        r.Dimensions = MetricDimension.to_repr dims ∧
        r.Unit = unit)) ∧
    (∀ s : ReporterState, ∀ r : StatRecord,
        OutRecord.statistic r ∈ (CloudWatchAsyncMetricReporter.calculate_statistics s).1 →
        1 ≤ r.StatisticValues.SampleCount) ∧
    (∀ s : ReporterState,
        CloudWatchSyncMetricReporter.calculate_statistics s
          = CloudWatchAsyncMetricReporter.calculate_statistics s) := by
  refine ⟨⟨?_, ?_⟩, ?_, fun _ => rfl⟩
  · intro h
    subst h
    rfl
  · intro h
    rw [foldl_stat_add_value_eta]
    cases vs with
    | nil => exact absurd rfl h
    | cons v rest =>
      refine ⟨_, rfl, rfl, rfl, ?_, ?_, ?_, ?_, rfl, rfl, rfl⟩
      · exact foldl_min_mem rest v
      · exact foldl_min_le rest v
      · exact foldl_max_mem rest v
      · exact foldl_max_ge rest v
  · intro s r hr
    simp only [CloudWatchAsyncMetricReporter.calculate_statistics] at hr
    rw [List.mem_map] at hr
    obtain ⟨a, ha, hinj⟩ := hr
    injection hinj with har
    subst har
    rw [List.mem_filterMap] at ha
    obtain ⟨o, ho, hoa⟩ := ha
    rw [List.mem_map] at ho
    obtain ⟨p, _, hpo⟩ := ho
    rw [id_eq] at hoa
    subst hoa
    cases hv : p.2.value with
    | nil =>
      rw [StatisticSeries.to_repr, hv] at hpo
      exact absurd hpo (by simp)
    | cons v rest =>
      rw [StatisticSeries.to_repr, hv] at hpo
      injection hpo with hpr
      subst hpr
      simp

/-! ## Fingerprint injectivity on separator-free dimensions -/

theorem enc_pair_ne_nil (p : DimPair) : p.1 ++ '=' :: p.2 ≠ [] := by simp

theorem enc_pair_eq_intercalate (p : DimPair) :
    p.1 ++ '=' :: p.2 = List.intercalate ['='] [p.1, p.2] := by
  simp [List.intercalate, List.intersperse]

theorem splitOn_enc_pair (p : DimPair) (h1 : '=' ∉ p.1) (h2 : '=' ∉ p.2) :
    (p.1 ++ '=' :: p.2).splitOn '=' = [p.1, p.2] := by
  rw [enc_pair_eq_intercalate]
  refine List.splitOn_intercalate [p.1, p.2] '=' ?_ (by simp)
  intro l hl
  rcases List.mem_cons.mp hl with hl | hl
  · rw [hl]; exact h1
  · rw [List.mem_singleton.mp hl]; exact h2

theorem enc_pair_injective (p q : DimPair) (hp1 : '=' ∉ p.1) (hp2 : '=' ∉ p.2)
    (hq1 : '=' ∉ q.1) (hq2 : '=' ∉ q.2)
    (h : p.1 ++ '=' :: p.2 = q.1 ++ '=' :: q.2) : p = q := by
  have hs := splitOn_enc_pair p hp1 hp2
  rw [h, splitOn_enc_pair q hq1 hq2] at hs
  injection hs with e1 e2
  injection e2 with e2 _
  cases p
  cases q
  exact (Prod.ext e1 e2).symm

theorem amp_not_mem_enc (p : DimPair) (h1 : '&' ∉ p.1) (h2 : '&' ∉ p.2) :
    '&' ∉ p.1 ++ '=' :: p.2 := by
  intro hm
  rcases List.mem_append.mp hm with hm | hm
  · exact h1 hm
  · rcases List.mem_cons.mp hm with hm | hm
    · exact absurd hm (by decide)
    · exact h2 hm

theorem map_enc_injective :
    ∀ P Q : Dims, sepFree P → sepFree Q →
      P.map (fun r => r.1 ++ '=' :: r.2) = Q.map (fun r => r.1 ++ '=' :: r.2) → P = Q := by
  intro P
  induction P with
  | nil =>
    intro Q _ _ h
    cases Q with
    | nil => rfl
    | cons q Q => simp at h
  | cons p P ih =>
    intro Q hP hQ h
    cases Q with
    | nil => simp at h
    | cons q Q =>
      rw [List.map_cons, List.map_cons] at h
      injection h with hh ht
      obtain ⟨hp1, -, hp2, -⟩ := hP p (List.mem_cons_self _ _)
      obtain ⟨hq1, -, hq2, -⟩ := hQ q (List.mem_cons_self _ _)
      rw [enc_pair_injective p q hp1 hp2 hq1 hq2 hh,
        ih Q (fun r hr => hP r (List.mem_cons_of_mem _ hr))
          (fun r hr => hQ r (List.mem_cons_of_mem _ hr)) ht]

theorem splitOn_intercalate_nil_amp :
    (List.intercalate ['&'] ([] : List Str)).splitOn '&' = [[]] := by
  decide

theorem generate_id_injOn_sepFree (P1 P2 : Dims) (h1 : sepFree P1) (h2 : sepFree P2)
    (h : MetricDimension.generate_id (some P1) = MetricDimension.generate_id (some P2)) :
    P1 = P2 := by
  have hfree : ∀ P : Dims, sepFree P →
      ∀ l ∈ P.map (fun r => r.1 ++ '=' :: r.2), '&' ∉ l := by
    intro P hP l hl
    rw [List.mem_map] at hl
    obtain ⟨r, hr, hrl⟩ := hl
    obtain ⟨-, hr2, -, hr4⟩ := hP r hr
    exact hrl ▸ amp_not_mem_enc r hr2 hr4
  simp only [MetricDimension.generate_id] at h
  cases P1 with
  | nil =>
    cases P2 with
    | nil => rfl
    | cons q Q =>
      exfalso
      have e2 := List.splitOn_intercalate ((q :: Q).map fun r => r.1 ++ '=' :: r.2) '&'
        (hfree (q :: Q) h2) (by simp)
      rw [← h, List.map_nil, splitOn_intercalate_nil_amp, List.map_cons] at e2
      injection e2 with e2h
      exact enc_pair_ne_nil q e2h.symm
  | cons p P =>
    cases P2 with
    | nil =>
      exfalso
      have e1 := List.splitOn_intercalate ((p :: P).map fun r => r.1 ++ '=' :: r.2) '&'
        (hfree (p :: P) h1) (by simp)
      rw [h, List.map_nil, splitOn_intercalate_nil_amp, List.map_cons] at e1
      injection e1 with e1h
      exact enc_pair_ne_nil p e1h.symm
    | cons q Q =>
      have e1 := List.splitOn_intercalate ((p :: P).map fun r => r.1 ++ '=' :: r.2) '&'
        (hfree (p :: P) h1) (by simp)
      have e2 := List.splitOn_intercalate ((q :: Q).map fun r => r.1 ++ '=' :: r.2) '&'
        (hfree (q :: Q) h2) (by simp)
      rw [h, e2] at e1
      exact map_enc_injective (q :: Q) (p :: P) h2 h1 e1 |>.symm

/-- Claim C1 (counterexample): the claim asserts that any two dimension pair
sequences differing in order or content fingerprint differently; but the
sequences `[("a", "b"), ("c", "d")]` and `[("a", "b&c=d")]` differ in content
while both fingerprint to `"a=b&c=d"`. -/
theorem claim_C1_counterexample :
    MetricDimension.generate_id (some [(['a'], ['b']), (['c'], ['d'])])
      = MetricDimension.generate_id (some [(['a'], ['b', '&', 'c', '=', 'd'])]) ∧
    ([(['a'], ['b']), (['c'], ['d'])] : Dims) ≠ [(['a'], ['b', '&', 'c', '=', 'd'])] := by
  constructor
  · rfl
  · decide

/-- Claim C1 (amended): fingerprinting is deterministic (a pure function of
the pair sequence), an absent dimension set fingerprints to the empty string,
and order/content sensitivity holds for all pair sequences whose names and
values contain neither of the separator characters `'='` and `'&'`: any two
such sequences that differ in pair order or in any name or value have
different fingerprints.  (Without that restriction distinct sequences can
collide, see the counterexample.) -/
theorem claim_C1_fingerprint :
    (MetricDimension.generate_id none = []) ∧
    (∀ P : Dims, MetricDimension.generate_id (some P)
        = List.intercalate ['&'] (P.map fun p => p.1 ++ '=' :: p.2)) ∧
    (∀ P1 P2 : Dims, sepFree P1 → sepFree P2 → P1 ≠ P2 →
        MetricDimension.generate_id (some P1) ≠ MetricDimension.generate_id (some P2)) := by
  refine ⟨rfl, fun _ => rfl, ?_⟩
  intro P1 P2 h1 h2 hne heq
  exact hne (generate_id_injOn_sepFree P1 P2 h1 h2 heq)

/-- Witness for the amended claim C1 at concrete separator-free inputs:
`[("a","b")]` and `[("a","c")]` differ and so do their fingerprints. -/
theorem claim_C1_fingerprint_witness :
    sepFree [(['a'], ['b'])] ∧ sepFree [(['a'], ['c'])] ∧
    ([(['a'], ['b'])] : Dims) ≠ [(['a'], ['c'])] ∧
    MetricDimension.generate_id (some [(['a'], ['b'])])
      ≠ MetricDimension.generate_id (some [(['a'], ['c'])]) :=
  ⟨by decide, by decide, by decide,
   claim_C1_fingerprint.2.2 [(['a'], ['b'])] [(['a'], ['c'])]
     (by decide) (by decide) (by decide)⟩


/-! ## The batching loop -/

theorem chunked_nil {α : Type} : chunked ([] : List α) = [] := by
  simp [chunked]

theorem chunked_cons {α : Type} (l : List α) (hl : l ≠ []) :
    chunked l = l.take 20 :: chunked (l.drop 20) := by
  unfold chunked
  obtain ⟨m, hm⟩ : ∃ m, (l.length + 19) / 20 = m + 1 := by
    have hpos : 0 < l.length := List.length_pos.mpr hl
    exact ⟨(l.length + 19) / 20 - 1, by omega⟩
  rw [hm, List.range_succ_eq_map, List.map_cons]
  have hm' : ((l.drop 20).length + 19) / 20 = m := by
    rw [List.length_drop]
    omega
  rw [hm', List.map_map]
  congr 1
  apply List.map_congr_left
  intro a _
  simp only [Function.comp_apply, List.drop_drop]
  congr 2
  omega

theorem chunked_flatten {α : Type} (l : List α) : (chunked l).flatten = l := by
  by_cases hl : l = []
  · rw [hl, chunked_nil]; rfl
  · rw [chunked_cons l hl, List.flatten_cons, chunked_flatten (l.drop 20),
      List.take_append_drop]
termination_by l.length
decreasing_by
  have hpos : 0 < l.length := List.length_pos.mpr hl
  simp only [List.length_drop]
  omega

theorem chunked_length {α : Type} (l : List α) :
    (chunked l).length = (l.length + 19) / 20 := by
  simp [chunked]

theorem chunked_le_twenty {α : Type} (l : List α) : ∀ b ∈ chunked l, b.length ≤ 20 := by
  intro b hb
  unfold chunked at hb
  rw [List.mem_map] at hb
  obtain ⟨n, -, hn⟩ := hb
  rw [← hn]
  simp

/-- Claim C4: for every drained record list of `k` records, `_report` makes
exactly `⌈k/20⌉` (that is, `(k + 19) / 20`) transport calls, each carrying at
most 20 records; the concatenation of the transmitted chunks is exactly the
drained list (every record sent once, in order); with `k = 0` no transport
call is made — and the sync and async `_report` agree. -/
theorem claim_C4_report_batches (s : ReporterState) :
    ((CloudWatchAsyncMetricReporter.report_batches s).1.length
        = ((CloudWatchAsyncMetricReporter.drained s).1.length + 19) / 20) ∧
    (∀ b ∈ (CloudWatchAsyncMetricReporter.report_batches s).1, b.length ≤ 20) ∧
    ((CloudWatchAsyncMetricReporter.report_batches s).1.flatten
        = (CloudWatchAsyncMetricReporter.drained s).1) ∧
    ((CloudWatchAsyncMetricReporter.drained s).1 = [] →
        (CloudWatchAsyncMetricReporter.report_batches s).1 = []) ∧
    (CloudWatchSyncMetricReporter.report_batches s
        = CloudWatchAsyncMetricReporter.report_batches s) := by
  refine ⟨chunked_length _, chunked_le_twenty _, chunked_flatten _, ?_, rfl⟩
  intro h
  show chunked (CloudWatchAsyncMetricReporter.drained s).1 = []
  rw [h, chunked_nil]

/-- Witness for claim C4: on the empty store the drained list is empty and no
batch is produced; the other conjuncts are exercised at the same state. -/
theorem claim_C4_report_batches_witness :
    (CloudWatchAsyncMetricReporter.report_batches ReporterState.init).1 = [] ∧
    (CloudWatchAsyncMetricReporter.report_batches ReporterState.init).1.length = 0 :=
  ⟨(claim_C4_report_batches ReporterState.init).2.2.2.1 rfl,
   (claim_C4_report_batches ReporterState.init).1⟩


/-! ## Draining and recording: store lifecycle -/

theorem dictFind_dictSet_isSome {α β : Type} [DecidableEq α] (m : List (α × β)) (k k' : α)
    (v : β) (h : (dictFind m k').isSome) : (dictFind (dictSet m k v) k').isSome := by
  by_cases hk : k' = k
  · rw [hk, dictFind_dictSet_self]
    rfl
  · rw [dictFind_dictSet_ne m k k' v hk]
    exact h

theorem put_metric_keeps_statistics (s : ReporterState) (md : MetricData) :
    ((CloudWatchAsyncMetricReporter.put_metric s md).1).statistics = s.statistics := by
  obtain ⟨mn, mdim, mv, mu⟩ := md
  cases mn with
  | none => rfl
  | some name => cases mv <;> rfl

theorem put_statistic_keeps_metrics (s : ReporterState) (name : Str) (d : Option Dims)
    (v : Int) (u : Option Str) :
    ((CloudWatchAsyncMetricReporter.put_statistic s name d v u).1).metrics = s.metrics := rfl

theorem put_metric_preserves_keys (s : ReporterState) (md : MetricData) (k : Str)
    (h : (dictFind s.metrics k).isSome) :
    (dictFind ((CloudWatchAsyncMetricReporter.put_metric s md).1).metrics k).isSome := by
  obtain ⟨mn, mdim, mv, mu⟩ := md
  cases mn with
  | none => exact h
  | some name =>
    cases mv with
    | none =>
      simp only [CloudWatchAsyncMetricReporter.put_metric]
      cases hf : dictFind s.metrics (Metric.generate_id name mdim) with
      | none =>
        simp only [hf]
        exact dictFind_dictSet_isSome _ _ _ _ h
      | some mt =>
        simp only [hf]
        exact h
    | some v =>
      simp only [CloudWatchAsyncMetricReporter.put_metric]
      cases hf : dictFind s.metrics (Metric.generate_id name mdim) with
      | none =>
        simp only [hf]
        exact dictFind_dictSet_isSome _ _ _ _ (dictFind_dictSet_isSome _ _ _ _ h)
      | some mt =>
        simp only [hf]
        exact dictFind_dictSet_isSome _ _ _ _ h

theorem put_statistic_preserves_keys (s : ReporterState) (name : Str) (d : Option Dims)
    (v : Int) (u : Option Str) (k : Str)
    (h : (dictFind s.statistics k).isSome) :
    (dictFind ((CloudWatchAsyncMetricReporter.put_statistic s name d v u).1).statistics
      k).isSome := by
  simp only [CloudWatchAsyncMetricReporter.put_statistic]
  cases hf : dictFind s.statistics (Metric.generate_id name d) with
  | none =>
    simp only [hf]
    exact dictFind_dictSet_isSome _ _ _ _ (dictFind_dictSet_isSome _ _ _ _ h)
  | some st =>
    simp only [hf]
    exact dictFind_dictSet_isSome _ _ _ _ h

/-- Claim C5: the drain step empties both maps regardless of prior contents
and returns the counter records concatenated with the statistic records; a
second drain returns nothing; and the recording operations never clear state
(fingerprints present before a `put_metric`/`put_statistic` are present
after, and each call leaves the other map untouched) — with the sync variant
behaving identically. -/
theorem claim_C5_drain_clears (s : ReporterState) :
    ((CloudWatchAsyncMetricReporter.drained s).2.metrics = [] ∧
     (CloudWatchAsyncMetricReporter.drained s).2.statistics = []) ∧
    ((CloudWatchAsyncMetricReporter.drained s).1
        = (CloudWatchAsyncMetricReporter.calculate_metrics s).1
          ++ (CloudWatchAsyncMetricReporter.calculate_statistics s).1) ∧
    ((CloudWatchAsyncMetricReporter.drained
        (CloudWatchAsyncMetricReporter.drained s).2).1 = []) ∧
    (∀ (md : MetricData) (k : Str), (dictFind s.metrics k).isSome →
        (dictFind ((CloudWatchAsyncMetricReporter.put_metric s md).1).metrics k).isSome) ∧
    (∀ md : MetricData,
        ((CloudWatchAsyncMetricReporter.put_metric s md).1).statistics = s.statistics) ∧
    (∀ (n : Str) (d : Option Dims) (v : Int) (u : Option Str) (k : Str),
        (dictFind s.statistics k).isSome →
        (dictFind ((CloudWatchAsyncMetricReporter.put_statistic s n d v u).1).statistics
          k).isSome) ∧
    (∀ (n : Str) (d : Option Dims) (v : Int) (u : Option Str),
        ((CloudWatchAsyncMetricReporter.put_statistic s n d v u).1).metrics = s.metrics) ∧
    (CloudWatchSyncMetricReporter.drained s = CloudWatchAsyncMetricReporter.drained s) := by
  refine ⟨⟨rfl, rfl⟩, rfl, rfl, ?_, ?_, ?_, ?_, rfl⟩
  · exact fun md k h => put_metric_preserves_keys s md k h
  · exact fun md => put_metric_keeps_statistics s md
  · exact fun n d v u k h => put_statistic_preserves_keys s n d v u k h
  · exact fun n d v u => put_statistic_keeps_metrics s n d v u

/-- Witness for claim C5: the key-preservation conjuncts exercised on a
one-entry store. -/
theorem claim_C5_drain_clears_witness :
    (dictFind ((CloudWatchAsyncMetricReporter.put_metric
        ⟨[(['k'], ⟨['m'], none, none, []⟩)], []⟩
        ⟨some ['m'], none, some 1, none⟩).1).metrics ['k']).isSome ∧
    (dictFind ((CloudWatchAsyncMetricReporter.put_statistic
        ⟨[], [(['k'], ⟨['m'], none, none, []⟩)]⟩ ['m'] none 1 none).1).statistics
        ['k']).isSome :=
  ⟨(claim_C5_drain_clears ⟨[(['k'], ⟨['m'], none, none, []⟩)], []⟩).2.2.2.1
      ⟨some ['m'], none, some 1, none⟩ ['k'] (by decide),
   (claim_C5_drain_clears ⟨[], [(['k'], ⟨['m'], none, none, []⟩)]⟩).2.2.2.2.2.1
      ['m'] none 1 none ['k'] (by decide)⟩


/-! ## The recording contract -/

theorem dictGetD_dictSet_self {α β : Type} [DecidableEq α] (m : List (α × β)) (k : α)
    (v dflt : β) : dictGetD (dictSet m k v) k dflt = v := by
  unfold dictGetD
  rw [dictFind_dictSet_self]

theorem add_value_count_self (ser : MetricSeries) (v : Int) :
    dictGetD (ser.add_value v).value v 0 = dictGetD ser.value v 0 + 1 := by
  show dictGetD (dictSet ser.value v (dictGetD ser.value v 0 + 1)) v 0 = _
  rw [dictGetD_dictSet_self]

theorem put_metric_ok (s : ReporterState) (name : Str) (dims : Option Dims) (v : Int)
    (unit : Option Str) :
    (CloudWatchAsyncMetricReporter.put_metric s ⟨some name, dims, some v, unit⟩).2
      = .ok true := by
  simp only [CloudWatchAsyncMetricReporter.put_metric]

theorem put_metric_increments (s : ReporterState) (name : Str) (dims : Option Dims)
    (v : Int) (unit : Option Str) :
    seriesCountAt ((CloudWatchAsyncMetricReporter.put_metric s
        ⟨some name, dims, some v, unit⟩).1) (Metric.generate_id name dims) v
      = seriesCountAt s (Metric.generate_id name dims) v + 1 := by
  simp only [CloudWatchAsyncMetricReporter.put_metric, seriesCountAt]
  cases hf : dictFind s.metrics (Metric.generate_id name dims) with
  | none =>
    simp only [hf, dictFind_dictSet_self]
    rw [add_value_count_self]
    rfl
  | some mt =>
    simp only [hf, dictFind_dictSet_self]
    rw [add_value_count_self]

theorem put_metric_stores (s : ReporterState) (name : Str) (dims : Option Dims) (v : Int)
    (unit : Option Str) :
    (dictFind ((CloudWatchAsyncMetricReporter.put_metric s
        ⟨some name, dims, some v, unit⟩).1).metrics (Metric.generate_id name dims)).isSome := by
  simp only [CloudWatchAsyncMetricReporter.put_metric]
  cases hf : dictFind s.metrics (Metric.generate_id name dims) <;>
    simp only [hf, dictFind_dictSet_self, Option.isSome_some]

theorem put_statistic_appends (s : ReporterState) (name : Str) (dims : Option Dims)
    (v : Int) (unit : Option Str) :
    statSamplesAt ((CloudWatchAsyncMetricReporter.put_statistic s name dims v unit).1)
        (Metric.generate_id name dims)
      = statSamplesAt s (Metric.generate_id name dims) ++ [v] := by
  simp only [CloudWatchAsyncMetricReporter.put_statistic, statSamplesAt]
  cases hf : dictFind s.statistics (Metric.generate_id name dims) with
  | none => simp only [hf, dictFind_dictSet_self, StatisticSeries.add_value, List.nil_append]
  | some st => simp only [hf, dictFind_dictSet_self, StatisticSeries.add_value]

/-- Claim C6: `put_metric` with `MetricName` and `Value` present stores the
observation (the stored count of that value at that identity increments, the
series existing afterwards) and returns `True`; `put_statistic` with a name
and value appends the sample and returns `True`; a `put_metric` call missing
a required field propagates a `KeyError` to the caller instead of being
silently dropped — identically in the sync variant. -/
theorem claim_C6_recording_contract :
    (∀ (s : ReporterState) (name : Str) (dims : Option Dims) (v : Int) (unit : Option Str),
      (CloudWatchAsyncMetricReporter.put_metric s ⟨some name, dims, some v, unit⟩).2
          = .ok true ∧
      (dictFind ((CloudWatchAsyncMetricReporter.put_metric s
          ⟨some name, dims, some v, unit⟩).1).metrics
          (Metric.generate_id name dims)).isSome ∧
      seriesCountAt ((CloudWatchAsyncMetricReporter.put_metric s
          ⟨some name, dims, some v, unit⟩).1) (Metric.generate_id name dims) v
        = seriesCountAt s (Metric.generate_id name dims) v + 1) ∧
    (∀ (s : ReporterState) (name : Str) (dims : Option Dims) (v : Int) (unit : Option Str),
      (CloudWatchAsyncMetricReporter.put_statistic s name dims v unit).2 = true ∧
      statSamplesAt ((CloudWatchAsyncMetricReporter.put_statistic s name dims v unit).1)
          (Metric.generate_id name dims)
        = statSamplesAt s (Metric.generate_id name dims) ++ [v]) ∧
    (∀ (s : ReporterState) (md : MetricData), md.MetricName = none →
      (CloudWatchAsyncMetricReporter.put_metric s md).2 = .error "KeyError: MetricName") ∧
    (∀ (s : ReporterState) (md : MetricData) (name : Str),
      md.MetricName = some name → md.Value = none →
      (CloudWatchAsyncMetricReporter.put_metric s md).2 = .error "KeyError: Value") ∧
    (CloudWatchSyncMetricReporter.put_metric = CloudWatchAsyncMetricReporter.put_metric) ∧
    (CloudWatchSyncMetricReporter.put_statistic
        = CloudWatchAsyncMetricReporter.put_statistic) := by
  refine ⟨?_, ?_, ?_, ?_, rfl, rfl⟩
  · intro s name dims v unit
    exact ⟨put_metric_ok s name dims v unit, put_metric_stores s name dims v unit,
      put_metric_increments s name dims v unit⟩
  · intro s name dims v unit
    exact ⟨rfl, put_statistic_appends s name dims v unit⟩
  · intro s md h
    obtain ⟨mn, mdim, mv, mu⟩ := md
    cases h
    rfl
  · intro s md name h1 h2
    obtain ⟨mn, mdim, mv, mu⟩ := md
    cases h1
    cases h2
    rfl

/-- Witness for claim C6: the `KeyError` conjuncts exercised at concrete
malformed inputs. -/
theorem claim_C6_recording_contract_witness :
    (CloudWatchAsyncMetricReporter.put_metric ReporterState.init
        ⟨none, none, some 1, none⟩).2 = .error "KeyError: MetricName" ∧
    (CloudWatchAsyncMetricReporter.put_metric ReporterState.init
        ⟨some ['m'], none, none, none⟩).2 = .error "KeyError: Value" :=
  ⟨claim_C6_recording_contract.2.2.1 ReporterState.init ⟨none, none, some 1, none⟩ rfl,
   claim_C6_recording_contract.2.2.2.1 ReporterState.init ⟨some ['m'], none, none, none⟩
     ['m'] rfl rfl⟩


/-! ## The facade, variant equivalence, and the timing wrapper -/

/-- Claim C7: on both facades, `put_metric`/`put_statistic` with no reporter
configured are silent no-ops returning `False` (the `AttributeError` from the
absent reporter is caught), and with a reporter configured they forward to it
and return its boolean result `True`. -/
theorem claim_C7_facade :
    (∀ md : MetricData, CloudWatchSyncMetrics.put_metric none md = (none, .ok false)) ∧
    (∀ (n : Str) (d : Option Dims) (v : Int) (u : Option Str),
        CloudWatchSyncMetrics.put_statistic none n d v u = (none, .ok false)) ∧
    (∀ md : MetricData, CloudWatchAsyncMetrics.put_metric none md = (none, .ok false)) ∧
    (∀ (n : Str) (d : Option Dims) (v : Int) (u : Option Str),
        CloudWatchAsyncMetrics.put_statistic none n d v u = (none, .ok false)) ∧
    (∀ (r : ReporterState) (name : Str) (dims : Option Dims) (v : Int) (u : Option Str),
        CloudWatchSyncMetrics.put_metric (some r) ⟨some name, dims, some v, u⟩
          = (some (CloudWatchSyncMetricReporter.put_metric r
              ⟨some name, dims, some v, u⟩).1, .ok true)) ∧
    (∀ (r : ReporterState) (n : Str) (d : Option Dims) (v : Int) (u : Option Str),
        CloudWatchSyncMetrics.put_statistic (some r) n d v u
          = (some (CloudWatchSyncMetricReporter.put_statistic r n d v u).1, .ok true)) ∧
    (∀ (r : ReporterState) (name : Str) (dims : Option Dims) (v : Int) (u : Option Str),
        CloudWatchAsyncMetrics.put_metric (some r) ⟨some name, dims, some v, u⟩
          = (some (CloudWatchAsyncMetricReporter.put_metric r
              ⟨some name, dims, some v, u⟩).1, .ok true)) ∧
    (∀ (r : ReporterState) (n : Str) (d : Option Dims) (v : Int) (u : Option Str),
        CloudWatchAsyncMetrics.put_statistic (some r) n d v u
          = (some (CloudWatchAsyncMetricReporter.put_statistic r n d v u).1, .ok true)) := by
  refine ⟨fun _ => rfl, fun _ _ _ _ => rfl, fun _ => rfl, fun _ _ _ _ => rfl,
    ?_, fun _ _ _ _ _ => rfl, ?_, fun _ _ _ _ _ => rfl⟩
  · intro r name dims v u
    have h : (CloudWatchSyncMetricReporter.put_metric r
        ⟨some name, dims, some v, u⟩).2 = Except.ok true := put_metric_ok r name dims v u
    simp only [CloudWatchSyncMetrics.put_metric, h]
  · intro r name dims v u
    simp only [CloudWatchAsyncMetrics.put_metric, put_metric_ok r name dims v u]

/-- Claim C8: for every sequence of recording operations followed by a drain,
the blocking (`CloudWatchSyncMetricReporter`) and the non-blocking
(`CloudWatchAsyncMetricReporter`) reporters reach the same store, produce the
same drained record list and the same batch partition: the two deployment
variants implement identical semantics over the shared data model.
(Scheduling — threads vs. coroutines and the lock realisation — is outside
the shallow embedding; the sequential semantics embedded here is what the
claim compares.) -/
theorem claim_C8_sync_async_equiv (ops : List Op) :
    runSyncOps ops = runAsyncOps ops ∧
    CloudWatchSyncMetricReporter.drained (runSyncOps ops)
      = CloudWatchAsyncMetricReporter.drained (runAsyncOps ops) ∧
    CloudWatchSyncMetricReporter.report_batches (runSyncOps ops)
      = CloudWatchAsyncMetricReporter.report_batches (runAsyncOps ops) :=
  ⟨rfl, rfl, rfl⟩

/-- Claim C9 (code evaluation at the failing input): for an elapsed duration
of 1.5 s (1 500 000 µs) the wrapper records `elapsed.microseconds`, the
sub-second component 500 000, not the claimed total of 1 500 000 whole
microseconds; and when the wrapped callable raises, nothing is recorded at
all (the context managers have no `try/finally`), contradicting the claim
that the elapsed time is recorded "including when the wrapped unit of work
raised". -/
theorem claim_C9_monitored_duration :
    monitored_statistic false 1500000 = some 500000 ∧
    monitored_recorded_value 1500000 ≠ 1500000 ∧
    monitored_statistic true 1500000 = none :=
  ⟨rfl, by decide, rfl⟩


/-- Claim C10: a `put_metric` carrying `MetricName` but no `Value`, for an
identity with no existing series, raises `KeyError` only after inserting a
fresh empty `MetricSeries` — the store is changed by the failing call — and
at the next drain that empty counter series is emitted as a record with empty
`Values` and `Counts` (empty counter series, unlike empty statistic series,
are not suppressed). -/
theorem claim_C10_missing_value_side_effect (s : ReporterState) (name : Str)
    (dims : Option Dims) (unit : Option Str)
    (h : dictFind s.metrics (Metric.generate_id name dims) = none) :
    ((CloudWatchAsyncMetricReporter.put_metric s ⟨some name, dims, none, unit⟩).2
        = .error "KeyError: Value") ∧
    (dictFind ((CloudWatchAsyncMetricReporter.put_metric s
        ⟨some name, dims, none, unit⟩).1).metrics (Metric.generate_id name dims)
      = some ⟨name, dims, unit, []⟩) ∧
    ((CloudWatchAsyncMetricReporter.put_metric s ⟨some name, dims, none, unit⟩).1 ≠ s) ∧
    (OutRecord.counter ⟨name, MetricDimension.to_repr dims, unit, [], []⟩
      ∈ (CloudWatchAsyncMetricReporter.drained
          (CloudWatchAsyncMetricReporter.put_metric s
            ⟨some name, dims, none, unit⟩).1).1) := by
  have hset : dictSet s.metrics (Metric.generate_id name dims)
      (⟨name, dims, unit, []⟩ : MetricSeries)
      = s.metrics ++ [(Metric.generate_id name dims, ⟨name, dims, unit, []⟩)] := by
    unfold dictSet
    rw [h]
  refine ⟨?_, ?_, ?_, ?_⟩
  · simp only [CloudWatchAsyncMetricReporter.put_metric, h]
  · simp only [CloudWatchAsyncMetricReporter.put_metric, h]
    exact dictFind_dictSet_self _ _ _
  · intro he
    have h2 := dictFind_dictSet_self s.metrics (Metric.generate_id name dims)
      (⟨name, dims, unit, []⟩ : MetricSeries)
    have h3 : ((CloudWatchAsyncMetricReporter.put_metric s
        ⟨some name, dims, none, unit⟩).1).metrics = s.metrics := by rw [he]
    simp only [CloudWatchAsyncMetricReporter.put_metric, h] at h3
    rw [h3, h] at h2
    exact Option.noConfusion h2
  · simp only [CloudWatchAsyncMetricReporter.put_metric, h,
      CloudWatchAsyncMetricReporter.drained, CloudWatchAsyncMetricReporter.calculate_metrics]
    apply List.mem_append_left
    rw [List.mem_map]
    refine ⟨⟨name, MetricDimension.to_repr dims, unit, [], []⟩, ?_, rfl⟩
    rw [List.mem_filterMap]
    refine ⟨some ⟨name, MetricDimension.to_repr dims, unit, [], []⟩, ?_, rfl⟩
    rw [List.mem_map]
    refine ⟨(Metric.generate_id name dims, ⟨name, dims, unit, []⟩), ?_, rfl⟩
    rw [hset]
    exact List.mem_append_right _ (List.mem_singleton_self _)

/-- Witness for claim C10: the failing call on the empty store. -/
theorem claim_C10_missing_value_side_effect_witness :
    ((CloudWatchAsyncMetricReporter.put_metric ReporterState.init
        ⟨some ['m'], none, none, none⟩).2 = .error "KeyError: Value") ∧
    (dictFind ((CloudWatchAsyncMetricReporter.put_metric ReporterState.init
        ⟨some ['m'], none, none, none⟩).1).metrics (Metric.generate_id ['m'] none)
      = some ⟨['m'], none, none, []⟩) ∧
    ((CloudWatchAsyncMetricReporter.put_metric ReporterState.init
        ⟨some ['m'], none, none, none⟩).1 ≠ ReporterState.init) ∧
    (OutRecord.counter ⟨['m'], none, none, [], []⟩
      ∈ (CloudWatchAsyncMetricReporter.drained
          (CloudWatchAsyncMetricReporter.put_metric ReporterState.init
            ⟨some ['m'], none, none, none⟩).1).1) :=
  claim_C10_missing_value_side_effect ReporterState.init ['m'] none none (by decide)


/-- Witness for claim C3: the spec scenario `100000, 120000, 90000` reduces to
`{SampleCount: 3, Sum: 310000}`, the empty sample list reduces to no record,
and a drained one-sample series is emitted with sample count at least one. -/
theorem claim_C3_statistic_series_witness :
    ((([] : List Int).foldl StatisticSeries.add_value ⟨['l'], none, none, []⟩).to_repr
        = none) ∧
    (∃ r : StatRecord,
      (([100000, 120000, 90000] : List Int).foldl StatisticSeries.add_value
          ⟨['l'], none, none, []⟩).to_repr = some r ∧
      r.StatisticValues.SampleCount = 3 ∧ r.StatisticValues.Sum = 310000) ∧
    1 ≤ (⟨['x'], none, none, ⟨1, 5, 5, 5⟩⟩ : StatRecord).StatisticValues.SampleCount := by
  refine ⟨(claim_C3_statistic_series ['l'] none none []).1.1 rfl, ?_,
    (claim_C3_statistic_series ['x'] none none []).2.1
      ⟨[], [(['k'], ⟨['x'], none, none, [5]⟩)]⟩ ⟨['x'], none, none, ⟨1, 5, 5, 5⟩⟩
      (by decide)⟩
  obtain ⟨r, h1, h2, h3, -⟩ :=
    (claim_C3_statistic_series ['l'] none none [100000, 120000, 90000]).1.2 (by decide)
  refine ⟨r, h1, ?_, ?_⟩
  · rw [h2]
    rfl
  · rw [h3]
    decide

end CW
